import Mathlib

/-!
Shallow embedding of the calendar backend
(`src/calendar_backend/src/api/main.py` and `models.py`).

Modelling conventions:
* All instants live at a single fixed reference offset (UTC), as the spec
  requires ("no timezone-aware storage"); a `DateTime` is the tuple of
  calendar fields and Python's `datetime` comparison is the lexicographic
  comparison of those fields, embedded here as `DateTime.ltb`.
* The JSON file stores ISO strings and the handlers round-trip through
  `isoformat` / `fromisoformat`, which are mutually inverse on well-formed
  datetimes; the embedding stores `DateTime` values directly, so that
  round-trip is the identity.
* `uuid.uuid4()` and `datetime.now(...)` are nondeterministic inputs of the
  handlers; they are passed as explicit arguments (`event_id` / `user_id`,
  `now`).  Freshness of generated ids becomes an explicit hypothesis.
* Pydantic payload models: a field of `EventUpdate` absent from the request
  body (`model_dump(exclude_unset=True)`) is `none`; a supplied field is
  `some v`.  Supplying an explicit JSON `null` for a field is outside the
  model.
* `hash_password` / `create_access_token` are external collaborators
  (Credential Service); they are embedded as opaque-by-convention string
  functions whose internals no theorem depends on.
-/

/-- A naive/fixed-offset datetime: Python `datetime` restricted to the single
reference offset used by the service.  Comparison is lexicographic on
(year, month, day, hour, minute), exactly Python's `datetime` ordering
(finer fields would add further lexicographic components and change
nothing in the development). -/
structure DateTime where
  year : Nat
  month : Nat
  day : Nat
  hour : Nat
  minute : Nat
deriving DecidableEq

/-- Python `a < b` on datetimes: lexicographic field comparison. -/
def DateTime.ltb (a b : DateTime) : Bool :=
  if a.year ≠ b.year then decide (a.year < b.year)
  else if a.month ≠ b.month then decide (a.month < b.month)
  else if a.day ≠ b.day then decide (a.day < b.day)
  else if a.hour ≠ b.hour then decide (a.hour < b.hour)
  else decide (a.minute < b.minute)

/-- A stored user record (`users.json` item, built in `signup`). -/
structure User where
  id : String
  email : String
  password_hash : String
  created_at : DateTime
deriving DecidableEq

/-- A stored event record (`events.json` item, built in `create_event`). -/
structure Event where
  id : String
  user_id : String
  title : String
  description : Option String
  start : DateTime
  «end» : DateTime
  all_day : Bool
  reminder_minutes_before : Option Int
  created_at : DateTime
  updated_at : DateTime
deriving DecidableEq

/-- The persisted state: the `items` arrays of the two `JsonStore`s. -/
structure State where
  users : List User
  events : List Event
deriving DecidableEq

/-- Error taxonomy of the API (spec §7); HTTP codes in `main.py`:
409 conflict, 400 invalidRange, 404 notFound, 401 unauthenticated,
422 validationError (Pydantic). -/
inductive ApiError where
  | conflict
  | invalidRange
  | notFound
  | unauthenticated
  | validationError
deriving DecidableEq

/-- Python `str.lower`, per-character (faithful on ASCII emails). -/
def lowerStr (s : String) : String := s.map Char.toLower

/-- Embeds `hash_password` (auth.py): external Credential Service digest, opaque. -/
def hash_password (password : String) : String := password

/-- Embeds `create_access_token` (auth.py): external signed credential bound to the
subject; opaque, only the binding to the subject matters. -/
def create_access_token (subject : String) : String := subject

/-- Embeds `_get_user_by_email` (main.py 52-57): first user whose lowercased email
equals the lowercased query. -/
def _get_user_by_email (users : List User) (email : String) : Option User :=
  users.find? (fun u => lowerStr u.email == lowerStr email)

/-- Embeds `signup` (main.py 119-135): 409 Conflict when the email is taken,
otherwise append a new user and return a token. -/
def signup (st : State) (email password : String) (user_id : String)
    (now : DateTime) : State × Except ApiError String :=
  match _get_user_by_email st.users email with
  | some _ => (st, .error .conflict)
  | none =>
    let user : User :=
      { id := user_id, email := email,
        password_hash := hash_password password, created_at := now }
    ({ st with users := st.users ++ [user] }, .ok (create_access_token user_id))

/-- Payload `EventCreate` (models.py 22-34). -/
structure EventCreate where
  title : String
  description : Option String
  start : DateTime
  «end» : DateTime
  all_day : Bool
  reminder_minutes_before : Option Int
deriving DecidableEq

/-- Pydantic field constraints of `EventCreate` (models.py 22-30): the only
value constraint is `reminder_minutes_before ∈ [0, 10080]`; `title` is
required but carries no length constraint. -/
def event_create_valid (p : EventCreate) : Bool :=
  match p.reminder_minutes_before with
  | some r => decide (0 ≤ r) && decide (r ≤ 10080)
  | none => true

/-- Payload `EventUpdate` (models.py 37-45); `none` = field not supplied. -/
structure EventUpdate where
  title : Option String
  description : Option String
  start : Option DateTime
  «end» : Option DateTime
  all_day : Option Bool
  reminder_minutes_before : Option Int
deriving DecidableEq

/-- The all-unset update payload (empty request body `{}`). -/
def EventUpdate.empty : EventUpdate :=
  { title := none, description := none, start := none, «end» := none,
    all_day := none, reminder_minutes_before := none }

/-- Embeds `create_event` (main.py 175-201): reject `end < start` with 400,
otherwise build the record, append, persist. -/
def create_event (st : State) (user_id : String) (payload : EventCreate)
    (event_id : String) (now : DateTime) : State × Except ApiError Event :=
  if DateTime.ltb payload.«end» payload.start then (st, .error .invalidRange)
  else
    let event : Event :=
      { id := event_id, user_id := user_id, title := payload.title,
        description := payload.description, start := payload.start,
        «end» := payload.«end», all_day := payload.all_day,
        reminder_minutes_before := payload.reminder_minutes_before,
        created_at := now, updated_at := now }
    ({ st with events := st.events ++ [event] }, .ok event)

/-- The full POST /events pipeline: Pydantic validation of the payload
(`event_create_valid`) then the handler. -/
def create_event_endpoint (st : State) (user_id : String) (payload : EventCreate)
    (event_id : String) (now : DateTime) : State × Except ApiError Event :=
  if event_create_valid payload then create_event st user_id payload event_id now
  else (st, .error .validationError)

/-- Embeds `_list_events_for_user` (main.py 76-78). -/
def _list_events_for_user (st : State) (user_id : String) : List Event :=
  st.events.filter (fun e => e.user_id == user_id)

/-- Embeds `get_event` (main.py 224-230): scan the caller's events for the id,
404 if absent. -/
def get_event (st : State) (event_id user_id : String) : Except ApiError Event :=
  match (_list_events_for_user st user_id).find? (fun e => e.id == event_id) with
  | some e => .ok e
  | none => .error .notFound

/-- The field merge of `update_event` (main.py 250-255): fields present in
the payload overwrite, absent fields are untouched; `id`, `user_id`,
`created_at`, `updated_at` are not part of the payload. -/
def apply_update (e : Event) (p : EventUpdate) : Event :=
  { e with
    title := p.title.getD e.title
    description := match p.description with
      | some d => some d
      | none => e.description
    start := p.start.getD e.start
    «end» := p.«end».getD e.«end»
    all_day := p.all_day.getD e.all_day
    reminder_minutes_before := match p.reminder_minutes_before with
      | some r => some r
      | none => e.reminder_minutes_before }

/-- The scan-merge-validate-replace loop of `update_event` (main.py 247-264):
at the first (id, owner) match, merge, reject `end < start` with
InvalidRange, stamp `updated_at`, replace in place and stop; `none` if no
item matches. -/
def update_in (items : List Event) (event_id user_id : String)
    (p : EventUpdate) (now : DateTime) :
    Except ApiError (Option (List Event × Event)) :=
  match items with
  | [] => .ok none
  | e :: rest =>
    if e.id == event_id && e.user_id == user_id then
      let merged := apply_update e p
      if DateTime.ltb merged.«end» merged.start then .error .invalidRange
      else
        let merged' := { merged with updated_at := now }
        .ok (some (merged' :: rest, merged'))
    else
      match update_in rest event_id user_id p now with
      | .error err => .error err
      | .ok none => .ok none
      | .ok (some (rest', ev)) => .ok (some (e :: rest', ev))

/-- Embeds `update_event` (main.py 240-271): 404 when no (id, owner) match; on a
merge whose range is invalid the 400 aborts before any write, so the state
is unchanged. -/
def update_event (st : State) (event_id : String) (p : EventUpdate)
    (user_id : String) (now : DateTime) : State × Except ApiError Event :=
  match update_in st.events event_id user_id p now with
  | .error err => (st, .error err)
  | .ok none => (st, .error .notFound)
  | .ok (some (items', ev)) => ({ st with events := items' }, .ok ev)

/-- Embeds `delete_event` (main.py 280-289): drop every (id, owner) match; 404 when
the filter removed nothing. -/
def delete_event (st : State) (event_id user_id : String) :
    State × Except ApiError Bool :=
  let new_items := st.events.filter
    (fun e => !(e.id == event_id && e.user_id == user_id))
  if new_items.length == st.events.length then (st, .error .notFound)
  else ({ st with events := new_items }, .ok true)

/-- Embeds `_range_filter` (main.py 292-300): keep events overlapping the half-open
window, i.e. `e.start < end_dt and e.end > start_dt`. -/
def _range_filter (events : List Event) (start_dt end_dt : DateTime) :
    List Event :=
  events.filter (fun e =>
    DateTime.ltb e.start end_dt && DateTime.ltb start_dt e.«end»)

/-- Midnight at the first day of a month
(`datetime.combine(date(y, m, 1), datetime.min.time())`). -/
def first_of_month (year month : Nat) : DateTime :=
  { year := year, month := month, day := 1, hour := 0, minute := 0 }

/-- Midnight at the first day of the following month (main.py 353-356):
December rolls to January of the next year. -/
def first_of_next_month (year month : Nat) : DateTime :=
  if month == 12 then first_of_month (year + 1) 1
  else first_of_month year (month + 1)

/-- Embeds `month_view` (main.py 346-361): window from the first of the month to the
first of the next month, December rolling to January of the next year. -/
def month_view (st : State) (year month : Nat) (user_id : String) :
    List Event :=
  let start_dt := first_of_month year month
  let end_dt := first_of_next_month year month
  _range_filter (_list_events_for_user st user_id) start_dt end_dt

/-! Helper lemmas. -/

/-- A datetime is never strictly before itself. -/
lemma DateTime.ltb_irrefl (a : DateTime) : DateTime.ltb a a = false := by
  simp [DateTime.ltb]

/-- Same year, smaller month: first-of-month datetimes are ordered. -/
lemma ltb_first_of_month_month {m m' : Nat} (y : Nat) (h : m < m') :
    DateTime.ltb (first_of_month y m) (first_of_month y m') = true := by
  simp [DateTime.ltb, first_of_month, Nat.ne_of_lt h, h]

/-- Smaller year: first-of-month datetimes are ordered. -/
lemma ltb_first_of_month_year {y y' : Nat} (m m' : Nat) (h : y < y') :
    DateTime.ltb (first_of_month y m) (first_of_month y' m') = true := by
  simp [DateTime.ltb, first_of_month, Nat.ne_of_lt h, h]

/-- The first of a month is strictly before the first of the next month. -/
lemma ltb_first_of_next (y m : Nat) :
    DateTime.ltb (first_of_month y m) (first_of_next_month y m) = true := by
  unfold first_of_next_month
  by_cases h : m = 12
  · simp only [h, beq_self_eq_true, if_true]
    exact ltb_first_of_month_year _ _ (Nat.lt_succ_self y)
  · simp only [beq_eq_false_iff_ne.mpr h, if_false]
    exact ltb_first_of_month_month y (Nat.lt_succ_self m)

/-- Membership in the range filter is exactly the overlap test. -/
lemma mem_range_filter {events : List Event} {s t : DateTime} {e : Event} :
    e ∈ _range_filter events s t ↔
      e ∈ events ∧ DateTime.ltb e.start t = true ∧
        DateTime.ltb s e.«end» = true := by
  simp [_range_filter, List.mem_filter, Bool.and_eq_true]

/-- Membership in the month view: owned by the caller and overlapping the
month window. -/
lemma mem_month_view {st : State} {y m : Nat} {uid : String} {e : Event} :
    e ∈ month_view st y m uid ↔
      e ∈ st.events ∧ e.user_id = uid ∧
        DateTime.ltb e.start (first_of_next_month y m) = true ∧
        DateTime.ltb (first_of_month y m) e.«end» = true := by
  simp only [month_view, mem_range_filter, _list_events_for_user,
    List.mem_filter, beq_iff_eq, and_assoc]

/-- C4: for every event and half-open window, the range filter used by the
day, week and month views includes the event iff
`event.start < windowEnd` and `event.end > windowStart`; an event starting
exactly at `windowEnd` or ending exactly at `windowStart` is excluded. -/
theorem c4_range_filter_overlap (events : List Event) (s t : DateTime)
    (e : Event) :
    (e ∈ _range_filter events s t ↔
      e ∈ events ∧ DateTime.ltb e.start t = true ∧
        DateTime.ltb s e.«end» = true)
    ∧ (e.start = t → e ∉ _range_filter events s t)
    ∧ (e.«end» = s → e ∉ _range_filter events s t) := by
  refine ⟨mem_range_filter, ?_, ?_⟩
  · intro hst hmem
    rcases mem_range_filter.mp hmem with ⟨-, hlt, -⟩
    rw [hst, DateTime.ltb_irrefl] at hlt
    exact Bool.false_ne_true hlt
  · intro hen hmem
    rcases mem_range_filter.mp hmem with ⟨-, -, hlt⟩
    rw [hen, DateTime.ltb_irrefl] at hlt
    exact Bool.false_ne_true hlt

/-- Witness for C4 at a concrete event and window: the event
09:00-10:00 on 2024-01-01 overlaps the window 00:00-10:00 of that day and
is excluded once the window ends exactly at its start. -/
theorem c4_range_filter_overlap_witness :
    let e : Event :=
      { id := "e1", user_id := "A", title := "t", description := none,
        start := ⟨2024, 1, 1, 9, 0⟩, «end» := ⟨2024, 1, 1, 10, 0⟩,
        all_day := false, reminder_minutes_before := none,
        created_at := ⟨2024, 1, 1, 0, 0⟩, updated_at := ⟨2024, 1, 1, 0, 0⟩ }
    e ∉ _range_filter [e] ⟨2024, 1, 1, 0, 0⟩ ⟨2024, 1, 1, 9, 0⟩ :=
  (c4_range_filter_overlap _ ⟨2024, 1, 1, 0, 0⟩ ⟨2024, 1, 1, 9, 0⟩ _).2.1 rfl

/-- C5: the month view filters against the window from midnight of the first
of the month to midnight of the first of the next month, December rolling
to January of the next year; an event starting at the first instant of the
next month is excluded from the earlier month and included in the later
one. -/
theorem c5_month_view_window (st : State) (y m : Nat) (uid : String)
    (e : Event) (hm1 : 1 ≤ m) (hm12 : m ≤ 12) :
    (e ∈ month_view st y m uid ↔
      e ∈ st.events ∧ e.user_id = uid ∧
        DateTime.ltb e.start (first_of_next_month y m) = true ∧
        DateTime.ltb (first_of_month y m) e.«end» = true)
    ∧ first_of_next_month y 12 = first_of_month (y + 1) 1
    ∧ (e.start = first_of_next_month y m → e ∉ month_view st y m uid)
    ∧ (e.start = first_of_next_month y m →
        DateTime.ltb e.start e.«end» = true → e ∈ st.events →
        e.user_id = uid →
        (m ≤ 11 → e ∈ month_view st y (m + 1) uid)
        ∧ (m = 12 → e ∈ month_view st (y + 1) 1 uid)) := by
  refine ⟨mem_month_view, by simp [first_of_next_month], ?_, ?_⟩
  · intro hst hmem
    rcases mem_month_view.mp hmem with ⟨-, -, hlt, -⟩
    rw [hst, DateTime.ltb_irrefl] at hlt
    exact Bool.false_ne_true hlt
  · intro hst hspan hmem huid
    constructor
    · intro hm11
      have hne : m ≠ 12 := by omega
      have hnext : first_of_next_month y m = first_of_month y (m + 1) := by
        simp [first_of_next_month, hne]
      refine mem_month_view.mpr ⟨hmem, huid, ?_, ?_⟩
      · rw [hst, hnext]
        exact ltb_first_of_next y (m + 1)
      · rw [← hnext, ← hst]
        exact hspan
    · intro hm12'
      subst hm12'
      have hnext : first_of_next_month y 12 = first_of_month (y + 1) 1 := by
        simp [first_of_next_month]
      refine mem_month_view.mpr ⟨hmem, huid, ?_, ?_⟩
      · rw [hst, hnext]
        exact ltb_first_of_next (y + 1) 1
      · rw [← hnext, ← hst]
        exact hspan

/-! Concrete fixtures used by witnesses and counterexamples. -/

/-- A concrete morning instant, 2024-01-01 09:00. -/
def d0 : DateTime := ⟨2024, 1, 1, 9, 0⟩

/-- A concrete morning instant, 2024-01-01 10:00. -/
def d1 : DateTime := ⟨2024, 1, 1, 10, 0⟩

/-- A concrete stored event owned by account "A". -/
def ev0 : Event :=
  { id := "e1", user_id := "A", title := "Standup", description := none,
    start := d0, «end» := d1, all_day := false,
    reminder_minutes_before := none, created_at := d0, updated_at := d0 }

/-- A concrete state holding exactly `ev0`. -/
def st0 : State := ⟨[], [ev0]⟩

/-- A concrete event starting at the first instant of January 2025. -/
def evDec : Event :=
  { id := "e9", user_id := "A", title := "NYE", description := none,
    start := ⟨2025, 1, 1, 0, 0⟩, «end» := ⟨2025, 1, 1, 1, 0⟩,
    all_day := false, reminder_minutes_before := none,
    created_at := d0, updated_at := d0 }

/-- A concrete state holding exactly `evDec`. -/
def stDec : State := ⟨[], [evDec]⟩

/-- Witness for C5: the event starting exactly at 2025-01-01T00:00 is
included in the January 2025 month view. -/
theorem c5_month_view_window_witness :
    evDec ∈ month_view stDec (2024 + 1) 1 "A" :=
  ((c5_month_view_window stDec 2024 12 "A" evDec (by decide)
      (by decide)).2.2.2 rfl (by decide) (by decide) rfl).2 rfl

/-! Helper lemmas about the update loop. -/

/-- When no item matches (id, owner), the update loop reports no match. -/
lemma update_in_eq_none {items : List Event} {eid uid : String}
    {p : EventUpdate} {now : DateTime}
    (h : ∀ x ∈ items, ¬(x.id = eid ∧ x.user_id = uid)) :
    update_in items eid uid p now = .ok none := by
  induction items with
  | nil => rfl
  | cons e rest ih =>
    have hcond : (e.id == eid && e.user_id == uid) = false := by
      have := h e (List.mem_cons_self e rest)
      simp only [Bool.and_eq_false_iff, beq_eq_false_iff_ne, ne_eq]
      tauto
    rw [update_in]
    simp [hcond, ih fun x hx => h x (List.mem_cons_of_mem _ hx)]

/-- The update loop skips over a prefix with no (id, owner) match. -/
lemma update_in_append {l1 l2 : List Event} {eid uid : String}
    {p : EventUpdate} {now : DateTime}
    (h : ∀ x ∈ l1, ¬(x.id = eid ∧ x.user_id = uid)) :
    update_in (l1 ++ l2) eid uid p now =
      match update_in l2 eid uid p now with
      | .error err => .error err
      | .ok none => .ok none
      | .ok (some (rest', ev)) => .ok (some (l1 ++ rest', ev)) := by
  induction l1 with
  | nil =>
    simp only [List.nil_append]
    cases hv : update_in l2 eid uid p now with
    | error err => rfl
    | ok o =>
      cases o with
      | none => rfl
      | some pr => rfl
  | cons e rest ih =>
    have hcond : (e.id == eid && e.user_id == uid) = false := by
      have := h e (List.mem_cons_self e rest)
      simp only [Bool.and_eq_false_iff, beq_eq_false_iff_ne, ne_eq]
      tauto
    rw [List.cons_append, update_in]
    rw [ih fun x hx => h x (List.mem_cons_of_mem _ hx)]
    simp only [hcond]
    cases hv : update_in l2 eid uid p now with
    | error err => simp
    | ok o =>
      cases o with
      | none => simp
      | some pr => simp

/-- At a head that matches (id, owner), the update loop merges, validates
and replaces in place. -/
lemma update_in_cons_match {e : Event} {l2 : List Event} {eid uid : String}
    {p : EventUpdate} {now : DateTime}
    (hid : e.id = eid) (huid : e.user_id = uid) :
    update_in (e :: l2) eid uid p now =
      if DateTime.ltb (apply_update e p).«end» (apply_update e p).start
      then .error .invalidRange
      else .ok (some ({ apply_update e p with updated_at := now } :: l2,
                      { apply_update e p with updated_at := now })) := by
  rw [update_in]
  simp [hid, huid]

/-- Behaviour of `update_event` at the first (id, owner) match of the
collection: InvalidRange with the state untouched when the merged range is
invalid, otherwise the single record is replaced by the stamped merge. -/
lemma update_event_split {st : State} {l1 l2 : List Event} {e : Event}
    {p : EventUpdate} {now : DateTime}
    (hsplit : st.events = l1 ++ e :: l2)
    (hfirst : ∀ x ∈ l1, ¬(x.id = e.id ∧ x.user_id = e.user_id)) :
    update_event st e.id p e.user_id now =
      if DateTime.ltb (apply_update e p).«end» (apply_update e p).start
      then (st, .error .invalidRange)
      else ({ st with events :=
                l1 ++ { apply_update e p with updated_at := now } :: l2 },
            .ok { apply_update e p with updated_at := now }) := by
  unfold update_event
  rw [hsplit, update_in_append hfirst, update_in_cons_match rfl rfl]
  by_cases hv :
      DateTime.ltb (apply_update e p).«end» (apply_update e p).start = true
  · simp [hv]
  · simp only [Bool.not_eq_true] at hv
    simp [hv]

/-- C1: ownership isolation — for an event owned by account A and any other
account B, `get_event`, `update_event` and `delete_event` invoked with B's
id all answer NotFound and leave the state untouched, exactly as if the
event did not exist.  Id uniqueness across the collection (ids are
generated uuids) is an explicit hypothesis. -/
theorem c1_ownership_isolation (st : State) (e : Event) (A B : String)
    (p : EventUpdate) (now : DateTime)
    (hmem : e ∈ st.events) (hA : e.user_id = A) (hAB : B ≠ A)
    (huniq : ∀ x ∈ st.events, x.id = e.id → x.user_id = A) :
    get_event st e.id B = .error .notFound
    ∧ update_event st e.id p B now = (st, .error .notFound)
    ∧ delete_event st e.id B = (st, .error .notFound) := by
  have hnomatch : ∀ x ∈ st.events, ¬(x.id = e.id ∧ x.user_id = B) := by
    rintro x hx ⟨h1, h2⟩
    exact hAB (by rw [← h2]; exact huniq x hx h1)
  refine ⟨?_, ?_, ?_⟩
  · unfold get_event
    have hnone : (_list_events_for_user st B).find?
        (fun x => x.id == e.id) = none := by
      rw [List.find?_eq_none]
      intro x hx
      rcases (List.mem_filter.mp hx) with ⟨hxe, hxu⟩
      simp only [beq_iff_eq] at hxu ⊢
      exact fun h1 => hnomatch x hxe ⟨h1, hxu⟩
    rw [hnone]
  · unfold update_event
    rw [update_in_eq_none hnomatch]
  · have hkeep : st.events.filter
        (fun x => !(x.id == e.id && x.user_id == B)) = st.events := by
      rw [List.filter_eq_self]
      intro x hx
      simp only [Bool.not_eq_true', Bool.and_eq_false_iff,
        beq_eq_false_iff_ne, ne_eq]
      have := hnomatch x hx
      tauto
    unfold delete_event
    simp [hkeep]
    intro x hx h1
    have := hnomatch x hx
    tauto

/-- Witness for C1 at account "B" against the event of `st0` owned by "A". -/
theorem c1_ownership_isolation_witness :
    get_event st0 ev0.id "B" = .error .notFound
    ∧ update_event st0 ev0.id EventUpdate.empty "B" d0
        = (st0, .error .notFound)
    ∧ delete_event st0 ev0.id "B" = (st0, .error .notFound) :=
  c1_ownership_isolation st0 ev0 "A" "B" EventUpdate.empty d0
    (by decide) (by decide) (by decide) (by decide)

/-- A concrete create payload whose end precedes its start. -/
def pcBad : EventCreate :=
  { title := "X", description := none, start := d1, «end» := d0,
    all_day := false, reminder_minutes_before := none }

/-- A concrete partial update supplying only a new title. -/
def pT : EventUpdate :=
  { title := some "Sync", description := none, start := none, «end» := none,
    all_day := none, reminder_minutes_before := none }

/-- C2: `create_event` fails with InvalidRange exactly when `end < start`,
and `update_event` (at an existing owned event) fails with InvalidRange
exactly when the merged `end` precedes the merged `start`; in both cases
the failing call leaves the state unchanged (the result pairs the original
state with the error). -/
theorem c2_invalid_range (st : State) (uid : String) (pc : EventCreate)
    (eid : String) (now : DateTime) (pu : EventUpdate)
    (l1 l2 : List Event) (e : Event)
    (hsplit : st.events = l1 ++ e :: l2)
    (hfirst : ∀ x ∈ l1, ¬(x.id = e.id ∧ x.user_id = e.user_id)) :
    (create_event st uid pc eid now = (st, .error .invalidRange)
      ↔ DateTime.ltb pc.«end» pc.start = true)
    ∧ (update_event st e.id pu e.user_id now = (st, .error .invalidRange)
      ↔ DateTime.ltb (apply_update e pu).«end»
          (apply_update e pu).start = true) := by
  constructor
  · by_cases h : DateTime.ltb pc.«end» pc.start = true
    · simp [create_event, h]
    · simp only [Bool.not_eq_true] at h
      simp [create_event, h]
  · rw [update_event_split hsplit hfirst]
    by_cases hv : DateTime.ltb (apply_update e pu).«end»
        (apply_update e pu).start = true
    · simp [hv]
    · simp only [Bool.not_eq_true] at hv
      simp [hv]

/-- Witness for C2 at a concrete invalid create payload and the empty
update against the event of `st0`. -/
theorem c2_invalid_range_witness :
    (create_event st0 "A" pcBad "e2" d0 = (st0, .error .invalidRange)
      ↔ DateTime.ltb pcBad.«end» pcBad.start = true)
    ∧ (update_event st0 ev0.id EventUpdate.empty ev0.user_id d0
        = (st0, .error .invalidRange)
      ↔ DateTime.ltb (apply_update ev0 EventUpdate.empty).«end»
          (apply_update ev0 EventUpdate.empty).start = true) :=
  c2_invalid_range st0 "A" pcBad "e2" d0 EventUpdate.empty [] [] ev0
    rfl (by decide)

/-- C3: partial-update frame property — a successful update replaces only
the targeted record by its merge, the merge keeps `id`, `user_id` and
`created_at`, keeps every field not supplied by the payload, overwrites
every supplied field, and the stored record's `updated_at` is refreshed to
the update instant. -/
theorem c3_partial_update_frame (st : State) (p : EventUpdate)
    (now : DateTime) (l1 l2 : List Event) (e : Event)
    (hsplit : st.events = l1 ++ e :: l2)
    (hfirst : ∀ x ∈ l1, ¬(x.id = e.id ∧ x.user_id = e.user_id))
    (hvalid : DateTime.ltb (apply_update e p).«end»
        (apply_update e p).start = false) :
    update_event st e.id p e.user_id now
      = ({ st with events :=
            l1 ++ { apply_update e p with updated_at := now } :: l2 },
         .ok { apply_update e p with updated_at := now })
    ∧ (apply_update e p).id = e.id
    ∧ (apply_update e p).user_id = e.user_id
    ∧ (apply_update e p).created_at = e.created_at
    ∧ (p.title = none → (apply_update e p).title = e.title)
    ∧ (p.description = none → (apply_update e p).description = e.description)
    ∧ (p.start = none → (apply_update e p).start = e.start)
    ∧ (p.«end» = none → (apply_update e p).«end» = e.«end»)
    ∧ (p.all_day = none → (apply_update e p).all_day = e.all_day)
    ∧ (p.reminder_minutes_before = none →
        (apply_update e p).reminder_minutes_before
          = e.reminder_minutes_before)
    ∧ (∀ v, p.title = some v → (apply_update e p).title = v)
    ∧ (∀ v, p.description = some v →
        (apply_update e p).description = some v)
    ∧ (∀ v, p.start = some v → (apply_update e p).start = v)
    ∧ (∀ v, p.«end» = some v → (apply_update e p).«end» = v)
    ∧ (∀ v, p.all_day = some v → (apply_update e p).all_day = v)
    ∧ (∀ v, p.reminder_minutes_before = some v →
        (apply_update e p).reminder_minutes_before = some v) := by
  refine ⟨?_, rfl, rfl, rfl, ?_, ?_, ?_, ?_, ?_, ?_, ?_, ?_, ?_, ?_, ?_, ?_⟩
  · rw [update_event_split hsplit hfirst]
    simp [hvalid]
  all_goals
    first
    | (intro h; simp [apply_update, h])
    | (intro v h; simp [apply_update, h])

/-- Witness for C3: updating only the title of the event of `st0` leaves
its start untouched. -/
theorem c3_partial_update_frame_witness :
    (apply_update ev0 pT).start = ev0.start :=
  (c3_partial_update_frame st0 pT d1 [] [] ev0 rfl (by decide)
    (by decide)).2.2.2.2.2.2.1 rfl

/-- C10: an update supplying no fields at all succeeds on an existing owned
event (whose stored range satisfies the `start ≤ end` invariant), returns
the event, and changes only `updated_at`. -/
theorem c10_empty_update (st : State) (now : DateTime) (l1 l2 : List Event)
    (e : Event)
    (hsplit : st.events = l1 ++ e :: l2)
    (hfirst : ∀ x ∈ l1, ¬(x.id = e.id ∧ x.user_id = e.user_id))
    (hinv : DateTime.ltb e.«end» e.start = false) :
    update_event st e.id EventUpdate.empty e.user_id now
      = ({ st with events := l1 ++ { e with updated_at := now } :: l2 },
         .ok { e with updated_at := now }) := by
  have hae : apply_update e EventUpdate.empty = e := rfl
  rw [update_event_split hsplit hfirst, hae]
  simp [hinv]

/-- Witness for C10: the empty update on the event of `st0` succeeds and
only bumps `updated_at`. -/
theorem c10_empty_update_witness :
    update_event st0 ev0.id EventUpdate.empty ev0.user_id d1
      = ({ st0 with events := [{ ev0 with updated_at := d1 }] },
         .ok { ev0 with updated_at := d1 }) :=
  c10_empty_update st0 d1 [] [] ev0 rfl (by decide) (by decide)

/-- The existence test behind `_get_user_by_email`: some stored user's
email matches case-insensitively. -/
lemma get_user_by_email_isSome {users : List User} {email : String} :
    (_get_user_by_email users email).isSome = true
      ↔ ∃ u ∈ users, lowerStr u.email = lowerStr email := by
  unfold _get_user_by_email
  rw [List.find?_isSome]
  simp [beq_iff_eq]

/-- C6: signup fails with Conflict exactly when some existing account's
email equals the requested email case-insensitively; otherwise it succeeds
and appends the new account to the accounts collection. -/
theorem c6_signup_email_uniqueness (st : State) (email password uid : String)
    (now : DateTime) :
    ((signup st email password uid now).2 = .error .conflict
      ↔ ∃ u ∈ st.users, lowerStr u.email = lowerStr email)
    ∧ ((¬ ∃ u ∈ st.users, lowerStr u.email = lowerStr email) →
        signup st email password uid now
          = ({ st with users := st.users ++
                [{ id := uid, email := email,
                   password_hash := hash_password password,
                   created_at := now }] },
             .ok (create_access_token uid))) := by
  cases h : _get_user_by_email st.users email with
  | some u =>
    have hex : ∃ u ∈ st.users, lowerStr u.email = lowerStr email :=
      get_user_by_email_isSome.mp (by rw [h]; rfl)
    constructor
    · unfold signup
      rw [h]
      simp [hex]
    · intro hno
      exact absurd hex hno
  | none =>
    have hnot : ¬ ∃ u ∈ st.users, lowerStr u.email = lowerStr email := by
      intro hex
      have := get_user_by_email_isSome.mpr hex
      rw [h] at this
      exact Bool.false_ne_true this
    constructor
    · unfold signup
      rw [h]
      simp [hnot]
    · intro _
      unfold signup
      rw [h]

/-- Witness for C6: the first signup on an empty directory succeeds and
appends the account. -/
theorem c6_signup_email_uniqueness_witness :
    signup ⟨[], []⟩ "a@x.com" "secret1" "u1" d0
      = ({ users := [{ id := "u1", email := "a@x.com",
                       password_hash := hash_password "secret1",
                       created_at := d0 }],
           events := [] },
         .ok (create_access_token "u1")) :=
  (c6_signup_email_uniqueness ⟨[], []⟩ "a@x.com" "secret1" "u1" d0).2
    (by decide)

/-- The delete filter keeps the whole collection when nothing matches. -/
lemma filter_keep_of_nomatch {l : List Event} {eid uid : String}
    (h : ∀ x ∈ l, ¬(x.id = eid ∧ x.user_id = uid)) :
    l.filter (fun x => !(x.id == eid && x.user_id == uid)) = l := by
  rw [List.filter_eq_self]
  intro x hx
  simp only [Bool.not_eq_true', Bool.and_eq_false_iff,
    beq_eq_false_iff_ne, ne_eq]
  have := h x hx
  tauto

/-- C7: delete answers NotFound exactly when no event matches both id and
owner (leaving the state unchanged), and on success — deleting the unique
matching event — the collection shrinks by exactly one and the event is
gone. -/
theorem c7_delete_semantics (st : State) (eid uid : String) :
    ((delete_event st eid uid).2 = .error .notFound
      ↔ ∀ x ∈ st.events, ¬(x.id = eid ∧ x.user_id = uid))
    ∧ ((delete_event st eid uid).2 = .error .notFound
        → (delete_event st eid uid).1 = st)
    ∧ (∀ l1 l2 e, st.events = l1 ++ e :: l2 → e.id = eid → e.user_id = uid →
        (∀ x ∈ l1, ¬(x.id = eid ∧ x.user_id = uid)) →
        (∀ x ∈ l2, ¬(x.id = eid ∧ x.user_id = uid)) →
        (delete_event st eid uid).2 = .ok true
        ∧ (delete_event st eid uid).1.events = l1 ++ l2
        ∧ (delete_event st eid uid).1.events.length + 1
            = st.events.length) := by
  by_cases hc : (st.events.filter
      (fun x => !(x.id == eid && x.user_id == uid))).length
      = st.events.length
  · have hkeep : st.events.filter
        (fun x => !(x.id == eid && x.user_id == uid)) = st.events :=
      (List.filter_sublist st.events).eq_of_length hc
    have hnomatch : ∀ x ∈ st.events, ¬(x.id = eid ∧ x.user_id = uid) := by
      rintro x hx ⟨h1, h2⟩
      have hxk := List.filter_eq_self.mp hkeep x hx
      simp [h1, h2] at hxk
    have hdel : delete_event st eid uid = (st, .error .notFound) := by
      simp only [delete_event, hkeep, beq_self_eq_true]
      rfl
    rw [hdel]
    refine ⟨iff_of_true rfl hnomatch, fun _ => rfl, ?_⟩
    intro l1 l2 e hsplit h1 h2 hl1 hl2
    exact absurd ⟨h1, h2⟩ (hnomatch e (hsplit ▸ List.mem_append_right l1
      (List.mem_cons_self e l2)))
  · have hne : ((st.events.filter
        (fun x => !(x.id == eid && x.user_id == uid))).length
        == st.events.length) = false := by
      simp only [beq_eq_false_iff_ne, ne_eq]
      exact hc
    have hmatch : ¬ ∀ x ∈ st.events, ¬(x.id = eid ∧ x.user_id = uid) := by
      intro hall
      exact hc (by rw [filter_keep_of_nomatch hall])
    have hdel : delete_event st eid uid
        = ({ st with events := st.events.filter (fun x => !(x.id == eid && x.user_id == uid)) }, .ok true) := by
      simp only [delete_event, hne]
      rfl
    rw [hdel]
    refine ⟨iff_of_false (by simp) hmatch, fun habs => absurd habs (by simp),
      ?_⟩
    intro l1 l2 e hsplit h1 h2 hl1 hl2
    have hpe : (!(e.id == eid && e.user_id == uid)) = false := by
      simp [h1, h2]
    have hres : st.events.filter
        (fun x => !(x.id == eid && x.user_id == uid)) = l1 ++ l2 := by
      rw [hsplit, List.filter_append, List.filter_cons, hpe,
        filter_keep_of_nomatch hl1, filter_keep_of_nomatch hl2]
      simp
    refine ⟨rfl, hres, ?_⟩
    rw [hres, hsplit]
    simp [List.length_append]
    omega

/-- Witness for C7: deleting the unique event of `st0` by its owner
succeeds and empties the collection. -/
theorem c7_delete_semantics_witness :
    (delete_event st0 "e1" "A").2 = .ok true
    ∧ (delete_event st0 "e1" "A").1.events = [] ++ []
    ∧ (delete_event st0 "e1" "A").1.events.length + 1
        = st0.events.length :=
  (c7_delete_semantics st0 "e1" "A").2.2 [] [] ev0 rfl rfl rfl
    (by decide) (by decide)

/-- A concrete valid create payload. -/
def pcGood : EventCreate :=
  { title := "Standup", description := none, start := d0, «end» := d1,
    all_day := false, reminder_minutes_before := none }

/-- C8: round-trip — a create with `start ≤ end` succeeds, and `get_event`
with the same owner and the new id on the resulting state returns exactly
the event create returned.  Freshness of the generated uuid among the
caller's events is an explicit hypothesis. -/
theorem c8_create_get_roundtrip (st : State) (uid : String) (p : EventCreate)
    (eid : String) (now : DateTime)
    (hrange : DateTime.ltb p.«end» p.start = false)
    (hfresh : ∀ x ∈ st.events, x.user_id = uid → x.id ≠ eid) :
    ∃ ev, (create_event st uid p eid now).2 = .ok ev
      ∧ get_event (create_event st uid p eid now).1 eid uid = .ok ev := by
  refine ⟨{ id := eid, user_id := uid, title := p.title,
            description := p.description, start := p.start, «end» := p.«end»,
            all_day := p.all_day,
            reminder_minutes_before := p.reminder_minutes_before,
            created_at := now, updated_at := now }, ?_, ?_⟩
  · simp [create_event, hrange]
  · have hc : (create_event st uid p eid now).1.events
        = st.events ++ [⟨eid, uid, p.title, p.description, p.start, p.«end»,
            p.all_day, p.reminder_minutes_before, now, now⟩] := by
      simp [create_event, hrange]
    unfold get_event _list_events_for_user
    rw [hc, List.filter_append, List.find?_append]
    have hnone : ((st.events.filter (fun x => x.user_id == uid)).find?
        (fun x => x.id == eid)) = none := by
      rw [List.find?_eq_none]
      intro x hx
      rcases List.mem_filter.mp hx with ⟨hxe, hxu⟩
      simp only [beq_iff_eq] at hxu ⊢
      exact hfresh x hxe hxu
    rw [hnone]
    simp

/-- Witness for C8 at the concrete payload `pcGood` against `st0`. -/
theorem c8_create_get_roundtrip_witness :
    ∃ ev, (create_event st0 "A" pcGood "e2" d0).2 = .ok ev
      ∧ get_event (create_event st0 "A" pcGood "e2" d0).1 "e2" "A"
          = .ok ev :=
  c8_create_get_roundtrip st0 "A" pcGood "e2" d0 (by decide) (by decide)

/-- A concrete create payload whose title is the empty string. -/
def pcEmptyTitle : EventCreate :=
  { title := "", description := none, start := d0, «end» := d1,
    all_day := false, reminder_minutes_before := none }

/-- Counterexample to C9: the create request with empty title is not
rejected — neither Pydantic (no length constraint on `title` in models.py)
nor the handler checks emptiness — the call succeeds and the event is
persisted. -/
theorem c9_counterexample_empty_title_accepted :
    (create_event_endpoint st0 "A" pcEmptyTitle "e2" d0).2
      = .ok { id := "e2", user_id := "A", title := "", description := none,
              start := d0, «end» := d1, all_day := false,
              reminder_minutes_before := none, created_at := d0,
              updated_at := d0 }
    ∧ (create_event_endpoint st0 "A" pcEmptyTitle "e2" d0).1.events.length
        = st0.events.length + 1 := by
  constructor
  · rfl
  · rfl

/-- C9 amended: the title is required but may be empty — a create request
whose title is the empty string passes validation and (given a valid range
and reminder) succeeds, persisting the event with the empty title. -/
theorem c9_empty_title_create_succeeds (st : State) (uid eid : String)
    (now : DateTime) (p : EventCreate)
    (htitle : p.title = "")
    (hvalidp : event_create_valid p = true)
    (hrange : DateTime.ltb p.«end» p.start = false) :
    ∃ ev, (create_event_endpoint st uid p eid now).2 = .ok ev
      ∧ ev.title = ""
      ∧ (create_event_endpoint st uid p eid now).1.events
          = st.events ++ [ev] := by
  refine ⟨{ id := eid, user_id := uid, title := p.title,
            description := p.description, start := p.start, «end» := p.«end»,
            all_day := p.all_day,
            reminder_minutes_before := p.reminder_minutes_before,
            created_at := now, updated_at := now }, ?_, htitle, ?_⟩
  · simp [create_event_endpoint, hvalidp, create_event, hrange]
  · simp [create_event_endpoint, hvalidp, create_event, hrange]

/-- Witness for the amended C9 at the concrete payload `pcEmptyTitle`. -/
theorem c9_empty_title_create_succeeds_witness :
    ∃ ev, (create_event_endpoint st0 "A" pcEmptyTitle "e3" d0).2 = .ok ev
      ∧ ev.title = ""
      ∧ (create_event_endpoint st0 "A" pcEmptyTitle "e3" d0).1.events
          = st0.events ++ [ev] :=
  c9_empty_title_create_succeeds st0 "A" "e3" d0 pcEmptyTitle rfl
    (by decide) (by decide)
